import Mathlib

/-!
Shallow embedding of `src/hw_bot_cli_v3.py`, a small in-memory contact
directory: validated phone numbers (`Phone`), contact records (`Record`)
holding a name and a phone list, and an `AddressBook` mapping names to
records.

Python exceptions are modelled with `Except String`: an operation that can
raise returns its post-state together with `Except String String`, where
`Except.ok` carries the returned confirmation string and `Except.error`
carries the `ValueError` message.  The post-state component records the
object's field values at the moment the operation returns or raises; it is
translated from the Python statement order (a raise before a mutation
leaves the state component equal to the input state).

The Python `dict` underlying `AddressBook` (via `UserDict`) is modelled as
an insertion-ordered association list with unique keys: assignment to an
existing key replaces the stored value in place, assignment to a fresh key
appends, deletion removes the entry.
-/

set_option autoImplicit false

/-- matchTenDigitsDollar k l is the Python truth value of
re.match applied to the pattern of k digit atoms followed by the
dollar anchor, on the character list l: it consumes k digit characters
from the front and then requires the dollar anchor to match, which in
Python succeeds at the end of the string or just before a single newline
that ends the string.  The digit atom is modelled as an ASCII digit
(Python's digit class also accepts further Unicode decimal digits; only
ASCII digits occur in this development). -/
def matchTenDigitsDollar : Nat → List Char → Bool
  | 0, rest => rest = [] || rest = ['\n']
  | _ + 1, [] => false
  | k + 1, c :: cs => c.isDigit && matchTenDigitsDollar k cs

/-- phoneMatch s is the result of the validation test in Phone's
constructor, re.match of ten digits anchored at both ends against s. -/
def phoneMatch (s : String) : Bool :=
  matchTenDigitsDollar 10 s.data

/-- phoneErrMsg is the ValueError message raised by Phone's constructor. -/
def phoneErrMsg : String := "Phone number must contain exactly 10 digits."

/-- tenDigits s states that s consists of exactly 10 ASCII digit
characters; this is the spec's reading of the phone format. -/
def tenDigits (s : String) : Bool :=
  s.data.length = 10 && s.data.all Char.isDigit

/-- Name is the Python Name field: a plain string wrapper with no
validation (the Field base class flattened in). -/
structure Name where
  value : String
  deriving DecidableEq, Repr

/-- Phone is the Python Phone field: a string wrapper whose constructor
validates the value (see Phone.init). -/
structure Phone where
  value : String
  deriving DecidableEq, Repr

/-- Phone.init models Phone's constructor: if the regex test fails it
raises ValueError with phoneErrMsg, otherwise it stores the string
unchanged. -/
def Phone.init (value : String) : Except String Phone :=
  if phoneMatch value then Except.ok { value := value } else Except.error phoneErrMsg

/-- Record is the Python Record class: a Name plus an ordered list of
Phone entries. -/
structure Record where
  name : Name
  phones : List Phone
  deriving DecidableEq, Repr

/-- Record.init models Record's constructor: wraps the name, starts with
an empty phone list. -/
def Record.init (name : String) : Record :=
  { name := { value := name }, phones := [] }

/-- Record.add_phone: validates the string by constructing a Phone (a
ValueError propagates with the list untouched), then appends it and
returns a confirmation string. -/
def Record.add_phone (r : Record) (phone : String) : Record × Except String String :=
  match Phone.init phone with
  | Except.error e => (r, Except.error e)
  | Except.ok p =>
      ({ r with phones := r.phones ++ [p] },
       Except.ok ("Phone " ++ phone ++ " added to " ++ r.name.value ++ "."))

/-- removePhoneFromList phone l scans l for the first entry whose value
equals phone; some l means it was found and removed, none means absent.
This mirrors the loop in Record.remove_phone. -/
def removePhoneFromList (phone : String) : List Phone → Option (List Phone)
  | [] => none
  | p :: ps =>
      if p.value = phone then some ps
      else (removePhoneFromList phone ps).map (fun l => p :: l)

/-- Record.remove_phone: removes the first phone with the given value and
confirms, or returns the not-found message; never raises. -/
def Record.remove_phone (r : Record) (phone : String) : Record × String :=
  match removePhoneFromList phone r.phones with
  | some ps =>
      ({ r with phones := ps },
       "Phone " ++ phone ++ " removed from " ++ r.name.value ++ ".")
  | none => (r, "Phone number not found.")

/-- EditResult is the outcome of the loop in Record.edit_phone: the old
value was not found, or Phone's constructor rejected the new value, or
the replacement list was produced. -/
inductive EditResult where
  | notFound
  | invalid (e : String)
  | replaced (l : List Phone)
  deriving DecidableEq, Repr

/-- editLoop o n l mirrors the loop of Record.edit_phone: find the first
entry with value o; at that point construct a Phone from n (a ValueError
surfaces as invalid, with no element replaced) and put it in that
position. -/
def editLoop (o n : String) : List Phone → EditResult
  | [] => EditResult.notFound
  | p :: ps =>
      if p.value = o then
        match Phone.init n with
        | Except.error e => EditResult.invalid e
        | Except.ok np => EditResult.replaced (np :: ps)
      else
        match editLoop o n ps with
        | EditResult.notFound => EditResult.notFound
        | EditResult.invalid e => EditResult.invalid e
        | EditResult.replaced l => EditResult.replaced (p :: l)

/-- Record.edit_phone: replaces the first phone equal to old with a
freshly validated new phone and confirms; returns the not-found message
as a normal value when old is absent (new is then never validated);
propagates the ValueError, with the list unchanged, when old is present
but new is rejected. -/
def Record.edit_phone (r : Record) (old_phone new_phone : String) :
    Record × Except String String :=
  match editLoop old_phone new_phone r.phones with
  | EditResult.notFound => (r, Except.ok "Old phone number not found.")
  | EditResult.invalid e => (r, Except.error e)
  | EditResult.replaced l =>
      ({ r with phones := l },
       Except.ok ("Phone " ++ old_phone ++ " updated to " ++ new_phone ++
                  " for " ++ r.name.value ++ "."))

/-- findPhoneInList phone l mirrors the loop of Record.find_phone: the
first entry whose value equals phone, else none. -/
def findPhoneInList (phone : String) : List Phone → Option Phone
  | [] => none
  | p :: ps => if p.value = phone then some p else findPhoneInList phone ps

/-- Record.find_phone: first phone with the given value, or none. -/
def Record.find_phone (r : Record) (phone : String) : Option Phone :=
  findPhoneInList phone r.phones

/-- joinSemi mirrors the join of the phone strings with the separator of
semicolon and space used by Record's string conversion. -/
def joinSemi : List String → String
  | [] => ""
  | [s] => s
  | s :: rest => s ++ "; " ++ joinSemi rest

/-- Record.toStr models Record's string conversion. -/
def Record.toStr (r : Record) : String :=
  "Contact name: " ++ r.name.value ++ ", phones: " ++
    joinSemi (r.phones.map (fun p => p.value))

/-- setKey k v l is dict assignment on the association-list model:
replace the value at the first occurrence of k in place, or append a new
entry when k is absent. -/
def setKey (k : String) (v : Record) : List (String × Record) → List (String × Record)
  | [] => [(k, v)]
  | (k', v') :: rest =>
      if k' = k then (k, v) :: rest else (k', v') :: setKey k v rest

/-- lookupKey k l is dict lookup: the value at the first occurrence of k. -/
def lookupKey (k : String) : List (String × Record) → Option Record
  | [] => none
  | (k', v) :: rest => if k' = k then some v else lookupKey k rest

/-- containsKey k l is the dict membership test for k. -/
def containsKey (k : String) : List (String × Record) → Bool
  | [] => false
  | (k', _) :: rest => k' = k || containsKey k rest

/-- eraseKey k l is dict deletion: drop the first entry keyed k. -/
def eraseKey (k : String) : List (String × Record) → List (String × Record)
  | [] => []
  | (k', v) :: rest => if k' = k then rest else (k', v) :: eraseKey k rest

/-- AddressBook is the Python AddressBook, a UserDict from name strings
to records, modelled as an insertion-ordered association list. -/
structure AddressBook where
  data : List (String × Record)
  deriving DecidableEq, Repr

/-- AddressBook.add_record: stores the record under its name (overwriting
any previous entry for that name) and returns a confirmation. -/
def AddressBook.add_record (book : AddressBook) (record : Record) :
    AddressBook × String :=
  ({ data := setKey record.name.value record book.data },
   "Contact " ++ record.name.value ++ " added to the address book.")

/-- AddressBook.find: lookup of a record by name, none when absent. -/
def AddressBook.find (book : AddressBook) (name : String) : Option Record :=
  lookupKey name book.data

/-- AddressBook.delete: removes the entry for the name and confirms when
present, otherwise returns the not-found message with the book
untouched. -/
def AddressBook.delete (book : AddressBook) (name : String) :
    AddressBook × String :=
  if containsKey name book.data then
    ({ data := eraseKey name book.data },
     "Contact " ++ name ++ " has been deleted.")
  else (book, "Contact not found.")

/-- allPhonesValid r states that every phone stored in r passes the
constructor's format test. -/
def allPhonesValid (r : Record) : Bool :=
  r.phones.all (fun p => phoneMatch p.value)

/-- Reachable r holds when r can be produced from Record's constructor by
a sequence of add_phone, remove_phone and edit_phone calls (taking the
post-state of each call, whether it confirmed, reported not-found or
raised). -/
inductive Reachable : Record → Prop where
  | init (name : String) : Reachable (Record.init name)
  | add (r : Record) (s : String) (h : Reachable r) : Reachable (r.add_phone s).1
  | remove (r : Record) (s : String) (h : Reachable r) : Reachable (r.remove_phone s).1
  | edit (r : Record) (o n : String) (h : Reachable r) : Reachable (r.edit_phone o n).1

/-- findPhoneIdx phone l is the position of the first entry of l whose
value equals phone, the index at which Record.edit_phone replaces. -/
def findPhoneIdx (phone : String) : List Phone → Option Nat
  | [] => none
  | p :: ps =>
      if p.value = phone then some 0
      else (findPhoneIdx phone ps).map (fun k => k + 1)

lemma phoneInit_of_match (s : String) (h : phoneMatch s = true) :
    Phone.init s = Except.ok { value := s } := by
  simp [Phone.init, h]

lemma phoneInit_of_not_match (s : String) (h : phoneMatch s = false) :
    Phone.init s = Except.error phoneErrMsg := by
  simp [Phone.init, h]

lemma matchTenDigitsDollar_of_digits :
    ∀ (l : List Char) (k : Nat), l.length = k → l.all Char.isDigit = true →
      matchTenDigitsDollar k l = true := by
  intro l
  induction l with
  | nil =>
      intro k hk _
      subst hk
      simp [matchTenDigitsDollar]
  | cons c cs ih =>
      intro k hk hall
      subst hk
      simp only [List.all_cons, Bool.and_eq_true] at hall
      simp [matchTenDigitsDollar, hall.1, ih cs.length rfl hall.2]

lemma phoneMatch_of_tenDigits (s : String) (h : tenDigits s = true) :
    phoneMatch s = true := by
  simp only [tenDigits, Bool.and_eq_true, decide_eq_true_eq] at h
  exact matchTenDigitsDollar_of_digits s.data 10 h.1 h.2

lemma findPhoneInList_eq_none_iff (v : String) (l : List Phone) :
    findPhoneInList v l = none ↔ ∀ p ∈ l, p.value ≠ v := by
  induction l with
  | nil => simp [findPhoneInList]
  | cons p ps ih =>
      by_cases hp : p.value = v
      · simp [findPhoneInList, hp]
      · simp [findPhoneInList, hp, ih]

lemma findPhoneInList_value (v : String) (l : List Phone) (p : Phone)
    (h : findPhoneInList v l = some p) : p.value = v := by
  induction l with
  | nil => simp [findPhoneInList] at h
  | cons q qs ih =>
      by_cases hq : q.value = v
      · simp [findPhoneInList, hq] at h
        rw [← h]
        exact hq
      · simp [findPhoneInList, hq] at h
        exact ih h

lemma findPhoneInList_of_mem (v : String) (l : List Phone) (p : Phone)
    (hmem : p ∈ l) (hv : p.value = v) :
    ∃ q, findPhoneInList v l = some q ∧ q.value = v := by
  cases hfind : findPhoneInList v l with
  | none => exact absurd hv ((findPhoneInList_eq_none_iff v l).1 hfind p hmem)
  | some q => exact ⟨q, rfl, findPhoneInList_value v l q hfind⟩

lemma editLoop_notFound_of (o n : String) (l : List Phone)
    (h : ∀ p ∈ l, p.value ≠ o) : editLoop o n l = EditResult.notFound := by
  induction l with
  | nil => rfl
  | cons p ps ih =>
      have hp : ¬ p.value = o := h p (List.mem_cons_self p ps)
      have hps := ih (fun q hq => h q (List.mem_cons_of_mem p hq))
      simp [editLoop, hp, hps]

lemma editLoop_invalid_of (o n : String) (l : List Phone)
    (hmem : ∃ p ∈ l, p.value = o) (hn : phoneMatch n = false) :
    editLoop o n l = EditResult.invalid phoneErrMsg := by
  induction l with
  | nil => simp at hmem
  | cons p ps ih =>
      by_cases hp : p.value = o
      · simp [editLoop, hp, phoneInit_of_not_match n hn]
      · have : ∃ q ∈ ps, q.value = o := by
          obtain ⟨q, hq, hqv⟩ := hmem
          rcases List.mem_cons.1 hq with rfl | hq'
          · exact absurd hqv hp
          · exact ⟨q, hq', hqv⟩
        simp [editLoop, hp, ih this]

/-- C1: the spec claims PhoneNumber creation rejects every string whose
length is not 10 or that holds a non-digit character, and the code's own
error message promises exactly 10 digits; but the anchor used by the
regex also matches just before a trailing newline, so the eleven
character string of ten digits and a newline is accepted and stored
unchanged. -/
theorem C1_phone_accepts_trailing_newline :
    Phone.init "1234567890\n" = Except.ok { value := "1234567890\n" } ∧
    ("1234567890\n").data.length = 11 ∧
    ("1234567890\n").data.all Char.isDigit = false := by
  refine ⟨by rfl, by decide, by decide⟩

/-- C2 counterexample: the claim reads invalid as not exactly 10 digits;
with the stored phone 1111111111 present and the new value of ten digits
followed by a newline (length 11), edit confirms and replaces instead of
raising, so the claim as stated is false. -/
theorem C2_counterexample_newline_new :
    (Record.edit_phone
        { name := { value := "John" }, phones := [{ value := "1111111111" }] }
        "1111111111" "1234567890\n").2 =
      Except.ok "Phone 1111111111 updated to 1234567890\n for John." ∧
    (Record.edit_phone
        { name := { value := "John" }, phones := [{ value := "1111111111" }] }
        "1111111111" "1234567890\n").1.phones = [{ value := "1234567890\n" }] ∧
    ("1234567890\n").data.length ≠ 10 := by
  refine ⟨by rfl, by rfl, by decide⟩

/-- C2 (amended): when some stored phone equals old and the new value is
rejected by the Phone constructor's format test, edit_phone raises the
ValueError and the record, in particular its phone list, is exactly
unchanged. -/
theorem C2_edit_present_invalid_new (r : Record) (o n : String)
    (hpresent : ∃ p ∈ r.phones, p.value = o)
    (hn : phoneMatch n = false) :
    r.edit_phone o n = (r, Except.error phoneErrMsg) := by
  unfold Record.edit_phone
  rw [editLoop_invalid_of o n r.phones hpresent hn]

/-- C2 witness: concrete instance of the amended claim. -/
theorem C2_edit_present_invalid_new_witness :
    phoneMatch "123" = false ∧
    Record.edit_phone
        { name := { value := "John" }, phones := [{ value := "1111111111" }] }
        "1111111111" "123" =
      ({ name := { value := "John" }, phones := [{ value := "1111111111" }] },
       Except.error phoneErrMsg) := by
  refine ⟨by decide, C2_edit_present_invalid_new _ "1111111111" "123" ?_ (by decide)⟩
  exact ⟨{ value := "1111111111" }, by decide, by decide⟩

/-- C4: when no stored phone equals old, edit_phone returns the
not-found message as a normal value and the record is unchanged, for
every new value including invalid ones (new is never validated). -/
theorem C4_edit_absent_old (r : Record) (o n : String)
    (h : ∀ p ∈ r.phones, p.value ≠ o) :
    r.edit_phone o n = (r, Except.ok "Old phone number not found.") := by
  unfold Record.edit_phone
  rw [editLoop_notFound_of o n r.phones h]

/-- C4 witness: concrete instance with an invalid new value. -/
theorem C4_edit_absent_old_witness :
    phoneMatch "abc" = false ∧
    Record.edit_phone
        { name := { value := "John" }, phones := [{ value := "1111111111" }] }
        "2222222222" "abc" =
      ({ name := { value := "John" }, phones := [{ value := "1111111111" }] },
       Except.ok "Old phone number not found.") := by
  exact ⟨by decide, C4_edit_absent_old _ "2222222222" "abc" (by decide)⟩

/-- C10: a string the Phone constructor rejects makes add_phone raise
the ValueError before any append, so the record is exactly unchanged. -/
theorem C10_add_phone_invalid_atomic (r : Record) (s : String)
    (h : phoneMatch s = false) :
    r.add_phone s = (r, Except.error phoneErrMsg) := by
  unfold Record.add_phone
  rw [phoneInit_of_not_match s h]

/-- C10 witness: concrete instance. -/
theorem C10_add_phone_invalid_atomic_witness :
    phoneMatch "123" = false ∧
    Record.add_phone
        { name := { value := "John" }, phones := [{ value := "1111111111" }] }
        "123" =
      ({ name := { value := "John" }, phones := [{ value := "1111111111" }] },
       Except.error phoneErrMsg) := by
  exact ⟨by decide, C10_add_phone_invalid_atomic _ "123" (by decide)⟩

/-- C6: deleting a name with no entry returns the not-found message and
leaves the book, in particular its size, unchanged. -/
theorem C6_delete_absent (book : AddressBook) (name : String)
    (h : containsKey name book.data = false) :
    book.delete name = (book, "Contact not found.") ∧
    (book.delete name).1.data.length = book.data.length := by
  have hd : book.delete name = (book, "Contact not found.") := by
    simp [AddressBook.delete, h]
  exact ⟨hd, by rw [hd]⟩

/-- C6 witness: concrete instance. -/
theorem C6_delete_absent_witness :
    containsKey "Jane" [("John", Record.init "John")] = false ∧
    AddressBook.delete { data := [("John", Record.init "John")] } "Jane" =
      ({ data := [("John", Record.init "John")] }, "Contact not found.") := by
  exact ⟨by decide, (C6_delete_absent _ "Jane" (by decide)).1⟩

lemma findPhoneIdx_lt (o : String) (l : List Phone) (i : Nat)
    (h : findPhoneIdx o l = some i) : i < l.length := by
  induction l generalizing i with
  | nil => simp [findPhoneIdx] at h
  | cons p ps ih =>
      by_cases hp : p.value = o
      · simp [findPhoneIdx, hp] at h
        simp only [List.length_cons]
        omega
      · simp [findPhoneIdx, hp] at h
        obtain ⟨i', hi', rfl⟩ := h
        have := ih i' hi'
        simpa using this

lemma editLoop_replaced_of (o n : String) (l : List Phone) (i : Nat)
    (hfind : findPhoneIdx o l = some i) (hn : phoneMatch n = true) :
    editLoop o n l = EditResult.replaced (l.set i { value := n }) := by
  induction l generalizing i with
  | nil => simp [findPhoneIdx] at hfind
  | cons p ps ih =>
      by_cases hp : p.value = o
      · simp [findPhoneIdx, hp] at hfind
        subst hfind
        simp [editLoop, hp, phoneInit_of_match n hn]
      · simp [findPhoneIdx, hp] at hfind
        obtain ⟨i', hi', rfl⟩ := hfind
        simp [editLoop, hp, ih i' hi']

/-- C3: when the first phone equal to old sits at position i and new is a
string of exactly 10 digits, edit_phone confirms, replaces exactly
position i with new (same length, all other positions untouched), and
afterwards find_phone on old is absent (when no other position holds old
and new differs from old) while find_phone on new returns a match storing
new. -/
theorem C3_edit_present_valid (r : Record) (o n : String) (i : Nat)
    (hfind : findPhoneIdx o r.phones = some i)
    (hn : tenDigits n = true) :
    (r.edit_phone o n).2 =
      Except.ok ("Phone " ++ o ++ " updated to " ++ n ++ " for " ++ r.name.value ++ ".") ∧
    (r.edit_phone o n).1.phones = r.phones.set i { value := n } ∧
    (r.edit_phone o n).1.phones.length = r.phones.length ∧
    (∀ j, j ≠ i → ((r.edit_phone o n).1.phones)[j]? = (r.phones)[j]?) ∧
    ((r.edit_phone o n).1.phones)[i]? = some { value := n } ∧
    ((∀ j (hj : j < r.phones.length), j ≠ i → (r.phones[j]).value ≠ o) → n ≠ o →
      (r.edit_phone o n).1.find_phone o = none) ∧
    (∃ q, (r.edit_phone o n).1.find_phone n = some q ∧ q.value = n) := by
  have hm : phoneMatch n = true := phoneMatch_of_tenDigits n hn
  have hrep := editLoop_replaced_of o n r.phones i hfind hm
  have hlt : i < r.phones.length := findPhoneIdx_lt o r.phones i hfind
  refine ⟨?_, ?_, ?_, ?_, ?_, ?_, ?_⟩
  · simp [Record.edit_phone, hrep]
  · simp [Record.edit_phone, hrep]
  · simp [Record.edit_phone, hrep, List.length_set]
  · intro j hj
    simp [Record.edit_phone, hrep, List.getElem?_set_ne (Ne.symm hj)]
  · simp [Record.edit_phone, hrep, List.getElem?_set_self hlt]
  · intro huniq hne
    simp only [Record.edit_phone, hrep, Record.find_phone]
    rw [findPhoneInList_eq_none_iff]
    intro p hp
    obtain ⟨j, hj, hpj⟩ := List.mem_iff_getElem.1 hp
    rw [List.length_set] at hj
    by_cases hji : j = i
    · subst hji
      rw [List.getElem_set_self (by simpa [List.length_set] using hj)] at hpj
      rw [← hpj]
      exact fun hc => hne hc
    · rw [List.getElem_set_ne (fun hc => hji hc.symm)] at hpj
      rw [← hpj]
      exact huniq j hj hji
  · have hmem : ({ value := n } : Phone) ∈ r.phones.set i { value := n } :=
      List.mem_set r.phones i hlt { value := n }
    have := findPhoneInList_of_mem n (r.phones.set i { value := n }) { value := n } hmem rfl
    simpa [Record.edit_phone, hrep, Record.find_phone] using this

/-- C3 witness: concrete instance on a two-phone record. -/
theorem C3_edit_present_valid_witness :
    (Record.edit_phone
        { name := { value := "John" },
          phones := [{ value := "1111111111" }, { value := "2222222222" }] }
        "1111111111" "1234567890").2 =
      Except.ok "Phone 1111111111 updated to 1234567890 for John." ∧
    (Record.edit_phone
        { name := { value := "John" },
          phones := [{ value := "1111111111" }, { value := "2222222222" }] }
        "1111111111" "1234567890").1.phones =
      [{ value := "1234567890" }, { value := "2222222222" }] ∧
    (Record.edit_phone
        { name := { value := "John" },
          phones := [{ value := "1111111111" }, { value := "2222222222" }] }
        "1111111111" "1234567890").1.find_phone "1111111111" = none := by
  have h := C3_edit_present_valid
    { name := { value := "John" },
      phones := [{ value := "1111111111" }, { value := "2222222222" }] }
    "1111111111" "1234567890" 0 (by rfl) (by decide)
  exact ⟨h.1.trans (by rfl), (h.2.1).trans (by rfl),
    h.2.2.2.2.2.1 (by decide) (by decide)⟩

lemma lookupKey_setKey_self (k : String) (v : Record) (l : List (String × Record)) :
    lookupKey k (setKey k v l) = some v := by
  induction l with
  | nil => simp [setKey, lookupKey]
  | cons e rest ih =>
      obtain ⟨k', v'⟩ := e
      by_cases hk : k' = k
      · simp [setKey, hk, lookupKey]
      · simp [setKey, hk, lookupKey, ih]

lemma lookupKey_setKey_ne (k q : String) (v : Record) (l : List (String × Record))
    (h : q ≠ k) : lookupKey q (setKey k v l) = lookupKey q l := by
  have h' : ¬ k = q := fun hc => h hc.symm
  induction l with
  | nil => simp [setKey, lookupKey, h']
  | cons e rest ih =>
      obtain ⟨k', v'⟩ := e
      by_cases hk : k' = k
      · subst hk
        simp [setKey, lookupKey, h']
      · simp [setKey, hk, lookupKey, ih]

lemma mapFst_setKey (k : String) (v : Record) (l : List (String × Record))
    (h : containsKey k l = true) :
    (setKey k v l).map Prod.fst = l.map Prod.fst := by
  induction l with
  | nil => simp [containsKey] at h
  | cons e rest ih =>
      obtain ⟨k', v'⟩ := e
      by_cases hk : k' = k
      · simp [setKey, hk]
      · simp only [containsKey, Bool.or_eq_true, decide_eq_true_eq] at h
        rcases h with h | h
        · exact absurd h hk
        · simp [setKey, hk, ih h]

/-- C5: adding a record whose name is already a key always returns the
confirmation, keeps the key sequence unchanged, makes lookup of that name
return the new record in its entirety, and leaves every other name's
lookup untouched (the previous record under that key is no longer
reachable). -/
theorem C5_add_record_overwrites (book : AddressBook) (record : Record)
    (h : containsKey record.name.value book.data = true) :
    (book.add_record record).2 =
      "Contact " ++ record.name.value ++ " added to the address book." ∧
    (book.add_record record).1.data.map Prod.fst = book.data.map Prod.fst ∧
    (book.add_record record).1.find record.name.value = some record ∧
    (∀ k, k ≠ record.name.value →
      (book.add_record record).1.find k = book.find k) := by
  refine ⟨rfl, ?_, ?_, ?_⟩
  · exact mapFst_setKey record.name.value record book.data h
  · simp [AddressBook.add_record, AddressBook.find,
      lookupKey_setKey_self record.name.value record book.data]
  · intro k hk
    simp [AddressBook.add_record, AddressBook.find,
      lookupKey_setKey_ne record.name.value k record book.data hk]

/-- C5 witness: concrete overwrite of the single key John. -/
theorem C5_add_record_overwrites_witness :
    containsKey "John"
      [("John", { name := { value := "John" }, phones := [{ value := "1111111111" }] })] = true ∧
    (AddressBook.add_record
        { data := [("John", { name := { value := "John" },
                              phones := [{ value := "1111111111" }] })] }
        { name := { value := "John" }, phones := [{ value := "9999999999" }] }).1.find "John" =
      some { name := { value := "John" }, phones := [{ value := "9999999999" }] } ∧
    (AddressBook.add_record
        { data := [("John", { name := { value := "John" },
                              phones := [{ value := "1111111111" }] })] }
        { name := { value := "John" }, phones := [{ value := "9999999999" }] }).2 =
      "Contact John added to the address book." := by
  have h := C5_add_record_overwrites
    { data := [("John", { name := { value := "John" },
                          phones := [{ value := "1111111111" }] })] }
    { name := { value := "John" }, phones := [{ value := "9999999999" }] }
    (by decide)
  exact ⟨by decide, h.2.2.1, h.1.trans (by rfl)⟩

/-- C7: adding a string of exactly 10 digits succeeds with the
confirmation, and find_phone on the same string then returns a match
whose stored value is that string. -/
theorem C7_add_find_roundtrip (r : Record) (p : String)
    (h : tenDigits p = true) :
    (r.add_phone p).2 =
      Except.ok ("Phone " ++ p ++ " added to " ++ r.name.value ++ ".") ∧
    (∃ q, (r.add_phone p).1.find_phone p = some q ∧ q.value = p) := by
  have hm : phoneMatch p = true := phoneMatch_of_tenDigits p h
  have hi := phoneInit_of_match p hm
  constructor
  · simp [Record.add_phone, hi]
  · have hmem : ({ value := p } : Phone) ∈ r.phones ++ [{ value := p }] :=
      List.mem_append_right r.phones (List.mem_singleton_self _)
    have := findPhoneInList_of_mem p (r.phones ++ [{ value := p }]) { value := p } hmem rfl
    simpa [Record.add_phone, hi, Record.find_phone] using this

/-- C7 witness: concrete round-trip on a record that already holds
another phone. -/
theorem C7_add_find_roundtrip_witness :
    tenDigits "1234567890" = true ∧
    (Record.add_phone
        { name := { value := "John" }, phones := [{ value := "5555555555" }] }
        "1234567890").2 =
      Except.ok "Phone 1234567890 added to John." := by
  exact ⟨by decide,
    (C7_add_find_roundtrip
      { name := { value := "John" }, phones := [{ value := "5555555555" }] }
      "1234567890" (by decide)).1.trans (by rfl)⟩

/-- C8: the string conversion renders the contact name and then the phone
values joined by semicolon and space in list order; for any name and two
phone values the shape is explicit, and the spec's John scenario, built
through the constructors and add_phone, renders exactly as stated. -/
theorem C8_toStr_rendering :
    (∀ nm a b : String,
      Record.toStr { name := { value := nm },
                     phones := [{ value := a }, { value := b }] } =
        "Contact name: " ++ nm ++ ", phones: " ++ a ++ "; " ++ b) ∧
    (((Record.init "John").add_phone "1234567890").1.add_phone "5555555555").1.toStr =
      "Contact name: John, phones: 1234567890; 5555555555" := by
  constructor
  · intro nm a b
    simp [Record.toStr, joinSemi, String.append_assoc]
  · rfl

lemma allPhonesValid_add_phone (r : Record) (s : String)
    (h : allPhonesValid r = true) : allPhonesValid (r.add_phone s).1 = true := by
  cases hm : phoneMatch s with
  | false => simpa [Record.add_phone, phoneInit_of_not_match s hm] using h
  | true =>
      simp only [allPhonesValid, List.all_eq_true] at h ⊢
      simp only [Record.add_phone, phoneInit_of_match s hm]
      intro p hp
      rcases List.mem_append.1 hp with hp' | hp'
      · exact h p hp'
      · rw [List.mem_singleton.1 hp']
        exact hm

lemma mem_of_removePhoneFromList (v : String) (l l' : List Phone)
    (h : removePhoneFromList v l = some l') :
    ∀ p ∈ l', p ∈ l := by
  induction l generalizing l' with
  | nil => simp [removePhoneFromList] at h
  | cons q qs ih =>
      by_cases hq : q.value = v
      · simp only [removePhoneFromList, if_pos hq, Option.some.injEq] at h
        subst h
        exact fun p hp => List.mem_cons_of_mem q hp
      · simp only [removePhoneFromList, if_neg hq, Option.map_eq_some'] at h
        obtain ⟨l'', hl'', rfl⟩ := h
        intro p hp
        rcases List.mem_cons.1 hp with rfl | hp'
        · exact List.mem_cons_self p qs
        · exact List.mem_cons_of_mem q (ih l'' hl'' p hp')

lemma allPhonesValid_remove_phone (r : Record) (s : String)
    (h : allPhonesValid r = true) : allPhonesValid (r.remove_phone s).1 = true := by
  cases hrem : removePhoneFromList s r.phones with
  | none => simpa [Record.remove_phone, hrem] using h
  | some ps =>
      simp only [allPhonesValid, List.all_eq_true] at h ⊢
      simp only [Record.remove_phone, hrem]
      intro p hp
      exact h p (mem_of_removePhoneFromList s r.phones ps hrem p hp)

lemma editLoop_replaced_all (o n : String) (l l' : List Phone)
    (hall : l.all (fun p => phoneMatch p.value) = true)
    (hrep : editLoop o n l = EditResult.replaced l') :
    l'.all (fun p => phoneMatch p.value) = true := by
  induction l generalizing l' with
  | nil => simp [editLoop] at hrep
  | cons p ps ih =>
      simp only [List.all_cons, Bool.and_eq_true] at hall
      by_cases hp : p.value = o
      · cases hm : phoneMatch n with
        | false => simp [editLoop, hp, phoneInit_of_not_match n hm] at hrep
        | true =>
            simp only [editLoop, if_pos hp, phoneInit_of_match n hm,
              EditResult.replaced.injEq] at hrep
            subst hrep
            simp [hm, hall.2]
      · cases hrec : editLoop o n ps with
        | notFound => simp [editLoop, hp, hrec] at hrep
        | invalid e => simp [editLoop, hp, hrec] at hrep
        | replaced l'' =>
            simp only [editLoop, if_neg hp, hrec, EditResult.replaced.injEq] at hrep
            subst hrep
            simp only [List.all_cons, Bool.and_eq_true]
            exact ⟨hall.1, ih l'' hall.2 hrec⟩

lemma allPhonesValid_edit_phone (r : Record) (o n : String)
    (h : allPhonesValid r = true) : allPhonesValid (r.edit_phone o n).1 = true := by
  cases hloop : editLoop o n r.phones with
  | notFound => simpa [Record.edit_phone, hloop] using h
  | invalid e => simpa [Record.edit_phone, hloop] using h
  | replaced l' =>
      simp only [Record.edit_phone, hloop]
      exact editLoop_replaced_all o n r.phones l' h hloop

/-- C9: every record reachable from the constructor through add_phone,
remove_phone and edit_phone calls stores only phone values that pass the
constructor's format test, since phones enter the list only through the
validating Phone constructor. -/
theorem C9_reachable_phones_validated (r : Record) (h : Reachable r) :
    allPhonesValid r = true := by
  induction h with
  | init name => rfl
  | add r s _ ih => exact allPhonesValid_add_phone r s ih
  | remove r s _ ih => exact allPhonesValid_remove_phone r s ih
  | edit r o n _ ih => exact allPhonesValid_edit_phone r o n ih

/-- C9 witness: a record built by an add, edit, remove sequence. -/
theorem C9_reachable_phones_validated_witness :
    allPhonesValid
      ((((((Record.init "John").add_phone "1234567890").1.add_phone
          "5555555555").1.edit_phone "1234567890" "1112223333").1.remove_phone
          "5555555555").1) = true := by
  exact C9_reachable_phones_validated _
    (Reachable.remove _ _ (Reachable.edit _ _ _ (Reachable.add _ _
      (Reachable.add _ _ (Reachable.init "John")))))
